import Mathlib

/-!
Verification of the DOT knob-space controller (Orange-OpenSource/DOT).

Shallow embedding of the Python sources into Lean 4:
* numeric values (Python ints/floats) are modelled as exact rationals `ℚ`;
  boolean-knob tokens such as `"ON"`/`"OFF"` are only ever compared for
  equality in the code, so they are represented by two distinct rationals;
* Python dicts appear as ordered association lists (a Python dict has unique
  keys and a stable insertion order, so iterating over the entry list is
  equivalent to iterating over `dict.keys()` and indexing);
* fallible code returns `Except String`, where the string names the Python
  exception raised on that path;
* calls into external libraries (scikit-learn fits, scipy tests, the PRNG,
  the database, the filesystem clock) are supplied as oracle parameters: the
  model receives the value such a call would produce and is deterministic in
  those inputs.
-/

namespace DOT

/-! ## Python rounding

`round` in Python 3 rounds to the nearest integer, resolving ties to the
nearest even integer (banker's rounding). -/

/-- Python 3 `round(x)`: nearest integer, ties to even (the fractional part
`q - ⌊q⌋` is below, above, or exactly 1/2 according as `q` is below, above,
or exactly `⌊q⌋ + 1/2`). -/
def pyRound (q : ℚ) : ℤ :=
  let f := ⌊q⌋
  if q < (f : ℚ) + 1/2 then f
  else if (f : ℚ) + 1/2 < q then f + 1
  else if f % 2 = 0 then f else f + 1

/-- Python `round(x, 2)` (two decimal places), on exact rationals. -/
def round2 (q : ℚ) : ℚ := (pyRound (q * 100) : ℚ) / 100

theorem pyRound_intCast (n : ℤ) : pyRound (n : ℚ) = n := by
  unfold pyRound
  norm_num

/-! ## `Drivers/Normalizer.py`

`Normalizer` keeps the knob dictionary and a stable key order
(`self.knob_names = list(knob_dict.keys())`); we keep the entry list itself.
A knob's dictionary entry `[knob_type, [min, max, default]]` becomes
`KnobSpec`. -/

/-- One entry of the knob dictionary: `knob_type, (min_val, max_val, default_val)`. -/
structure KnobSpec where
  ktype : String
  minV : ℚ
  maxV : ℚ
  defV : ℚ
deriving DecidableEq, Repr

/-- `Normalizer.__init__`: stores the knob dictionary; the i-th normalized
value corresponds to the i-th knob of the (ordered) dictionary. -/
structure Normalizer where
  knobs : List (String × KnobSpec)
deriving DecidableEq, Repr

/-- Body of the `normalize` loop for a single knob (`Normalizer.normalize`,
lines 66-90): missing-key check, then dispatch on `knob_type`. -/
def normKnob (config : List (String × ℚ)) (k : String) (t : KnobSpec) :
    Except String ℚ :=
  match List.lookup k config with
  | none => .error "ValueError: missing knob"
  | some real_value =>
    if t.ktype = "integer" then
      if t.maxV = t.minV then .error "ValueError: max_val equals min_val"
      else .ok ((real_value - t.minV) / (t.maxV - t.minV))
    else if t.ktype = "boolean" then
      if real_value = t.minV then .ok 0
      else if real_value = t.maxV then .ok 1
      else .error "ValueError: boolean value out of domain"
    else .error "NotImplementedError: unsupported knob type"

/-- The `for knob in self.knob_names` loop of `Normalizer.normalize`:
the first failing knob raises; otherwise the normalized values are collected
in knob order. -/
def normalizeList (config : List (String × ℚ)) :
    List (String × KnobSpec) → Except String (List ℚ)
  | [] => .ok []
  | (k, t) :: rest =>
    match normKnob config k t with
    | .error e => .error e
    | .ok q =>
      match normalizeList config rest with
      | .error e => .error e
      | .ok qs => .ok (q :: qs)

/-- `Normalizer.normalize(config) -> list`. -/
def Normalizer.normalize (nz : Normalizer) (config : List (String × ℚ)) :
    Except String (List ℚ) :=
  normalizeList config nz.knobs

/-- Body of the `denormalize` loop for a single knob
(`Normalizer.denormalize`, lines 35-57): min-max scaling + `round` + the
two sequential clamps for the integer kind, the 0.5 threshold for the
boolean kind. -/
def denormKnob (k : String) (t : KnobSpec) (norm_val : ℚ) :
    Except String (String × ℚ) :=
  if t.ktype = "integer" then
    let real0 : ℚ := (pyRound (t.minV + norm_val * (t.maxV - t.minV)) : ℚ)
    let real1 : ℚ := if t.maxV ≤ real0 then t.maxV else real0
    let real2 : ℚ := if real1 ≤ t.minV then t.minV else real1
    .ok (k, real2)
  else if t.ktype = "boolean" then
    .ok (k, if norm_val < 1/2 then t.minV else t.maxV)
  else .error "NotImplementedError: unsupported knob type"

/-- The per-knob loop of `Normalizer.denormalize`, after the length guard:
indexing into `normalized_values` with `enumerate(self.knob_names)` is
walking the two lists in lock step. -/
def denormList : List (String × KnobSpec) → List ℚ →
    Except String (List (String × ℚ))
  | [], [] => .ok []
  | (k, t) :: ks, v :: vs =>
    match denormKnob k t v with
    | .error e => .error e
    | .ok p =>
      match denormList ks vs with
      | .error e => .error e
      | .ok ps => .ok (p :: ps)
  | _, _ => .error "ValueError: length mismatch"

/-- `Normalizer.denormalize(normalized_values) -> dict`: raises `ValueError`
when the vector length differs from the knob count, else converts each
value back. -/
def Normalizer.denormalize (nz : Normalizer) (normalized_values : List ℚ) :
    Except String (List (String × ℚ)) :=
  if normalized_values.length = nz.knobs.length then
    denormList nz.knobs normalized_values
  else .error "ValueError: length mismatch"

/-- `denormalize ∘ normalize` on a configuration. -/
def Normalizer.roundTrip (nz : Normalizer) (config : List (String × ℚ)) :
    Except String (List (String × ℚ)) :=
  (nz.normalize config).bind nz.denormalize

/-- `true` exactly on the raising paths. -/
def isErr {ε α : Type} : Except ε α → Bool
  | .error _ => true
  | .ok _ => false

/-- C1: on a one-knob dictionary, `denormalize (normalize {k ↦ v}) = {k ↦ v}`
for every integer knob with `min < max` and integer value `v ∈ [min, max]`,
and for every boolean knob with `v ∈ {min, max}`.  In exact arithmetic the
min-max scaling inverts exactly, so `round` and the two clamps are the
identity and the round-trip lands inside the documented tolerance (here:
exactly). -/
theorem normalize_denormalize_roundtrip :
    (∀ (k : String) (lo hi df : ℚ) (n : ℤ), lo < hi → lo ≤ (n : ℚ) →
      (n : ℚ) ≤ hi →
      Normalizer.roundTrip ⟨[(k, ⟨"integer", lo, hi, df⟩)]⟩ [(k, (n : ℚ))] =
        .ok [(k, (n : ℚ))]) ∧
    (∀ (k : String) (lo hi df v : ℚ), v = lo ∨ v = hi →
      Normalizer.roundTrip ⟨[(k, ⟨"boolean", lo, hi, df⟩)]⟩ [(k, v)] =
        .ok [(k, v)]) := by
  constructor
  · intro k lo hi df n h1 h2 h3
    have hne : ¬ (hi = lo) := ne_of_gt h1
    have hsub : hi - lo ≠ 0 := sub_ne_zero.mpr (ne_of_gt h1)
    have key : lo + ((n : ℚ) - lo) / (hi - lo) * (hi - lo) = (n : ℚ) := by
      field_simp
    simp [Normalizer.roundTrip, Normalizer.normalize, normalizeList,
      normKnob, Except.bind, Normalizer.denormalize, denormList,
      denormKnob, hne, key, pyRound_intCast]
    split_ifs with ha hb hc <;> linarith
  · intro k lo hi df v hv
    by_cases hlo : v = lo
    · simp [Normalizer.roundTrip, Normalizer.normalize, normalizeList,
        normKnob, Except.bind, Normalizer.denormalize, denormList,
        denormKnob, hlo]
    · have hv2 : v = hi := hv.resolve_left hlo
      have hne2 : ¬ hi = lo := fun h => hlo (hv2.trans h)
      simp [Normalizer.roundTrip, Normalizer.normalize, normalizeList,
        normKnob, Except.bind, Normalizer.denormalize, denormList,
        denormKnob, hlo, hv2, hne2]
      norm_num

/-- Witness for C1: a concrete integer knob (range `[0, 10]`, value `7`) and
a concrete boolean knob (tokens `2` and `5`, value `5`) both round-trip. -/
theorem normalize_denormalize_roundtrip_witness :
    Normalizer.roundTrip ⟨[("k", ⟨"integer", 0, 10, 0⟩)]⟩ [("k", ((7 : ℤ) : ℚ))] =
      .ok [("k", ((7 : ℤ) : ℚ))] ∧
    Normalizer.roundTrip ⟨[("b", ⟨"boolean", 2, 5, 2⟩)]⟩ [("b", 5)] =
      .ok [("b", 5)] :=
  ⟨normalize_denormalize_roundtrip.1 "k" 0 10 0 7 (by norm_num) (by norm_num)
      (by norm_num),
    normalize_denormalize_roundtrip.2 "b" 2 5 2 5 (Or.inr rfl)⟩

theorem isErr_normKnob (config : List (String × ℚ)) (k : String) (t : KnobSpec)
    (ht : t.ktype = "integer" ∨ t.ktype = "boolean") :
    isErr (normKnob config k t) = true ↔
      List.lookup k config = none ∨
      ∃ v, List.lookup k config = some v ∧
        ((t.ktype = "integer" ∧ t.maxV = t.minV) ∨
         (t.ktype = "boolean" ∧ v ≠ t.minV ∧ v ≠ t.maxV)) := by
  rcases hl : List.lookup k config with _ | v
  · simp [normKnob, hl, isErr]
  · rcases ht with ht | ht
    · by_cases h : t.maxV = t.minV
      · simp [normKnob, hl, ht, h, isErr]
      · simp [normKnob, hl, ht, h, isErr]
    · by_cases h1 : v = t.minV
      · simp [normKnob, hl, ht, h1, isErr]
      · by_cases h2 : v = t.maxV
        · have h3 : ¬ t.maxV = t.minV := fun hh => h1 (h2.trans hh)
          simp [normKnob, hl, ht, h1, h2, h3, isErr]
        · simp [normKnob, hl, ht, h1, h2, isErr]

theorem isErr_normalizeList (config : List (String × ℚ))
    (l : List (String × KnobSpec)) :
    isErr (normalizeList config l) =
      l.any (fun p => isErr (normKnob config p.1 p.2)) := by
  induction l with
  | nil => rfl
  | cons p rest ih =>
    obtain ⟨k, t⟩ := p
    rcases hk : normKnob config k t with e | q
    · simp [normalizeList, hk, isErr]
    · rcases hr : normalizeList config rest with e2 | qs <;>
      · rw [hr] at ih
        simp only [isErr] at ih
        simp only [normalizeList, hk, hr, isErr, List.any_cons, Bool.false_or]
        exact ih

theorem denormKnob_ok (k : String) (t : KnobSpec) (v : ℚ)
    (ht : t.ktype = "integer" ∨ t.ktype = "boolean") :
    isErr (denormKnob k t v) = false := by
  rcases ht with ht | ht <;> simp [denormKnob, ht, isErr]

theorem denormList_ok (l : List (String × KnobSpec)) (vs : List ℚ) :
    (∀ p ∈ l, p.2.ktype = "integer" ∨ p.2.ktype = "boolean") →
    vs.length = l.length → isErr (denormList l vs) = false := by
  induction l generalizing vs with
  | nil =>
    intro _ hlen
    cases vs with
    | nil => rfl
    | cons v vs' => simp at hlen
  | cons p rest ih =>
    intro ht hlen
    obtain ⟨k, t⟩ := p
    cases vs with
    | nil => simp at hlen
    | cons v vs' =>
      have h1 : t.ktype = "integer" ∨ t.ktype = "boolean" := ht (k, t) (by simp)
      have hrec : isErr (denormList rest vs') = false :=
        ih vs' (fun p hp => ht p (List.mem_cons_of_mem _ hp)) (by simpa using hlen)
      rcases hd : denormKnob k t v with e | r
      · have := denormKnob_ok k t v h1
        rw [hd] at this
        simp [isErr] at this
      · rcases hr : denormList rest vs' with e2 | ps
        · rw [hr] at hrec
          simp [isErr] at hrec
        · simp [denormList, hd, hr, isErr]

/-- C9: for a knob dictionary whose kinds are `integer` and `boolean`,
`normalize` raises exactly when some knob is missing from the config, a
boolean knob's value is neither its min nor its max, or an integer knob has
`max = min`; `denormalize` raises exactly when the vector length differs
from the knob count.  No other input is rejected. -/
theorem normalizer_raises_iff (nz : Normalizer)
    (htypes : ∀ p ∈ nz.knobs, p.2.ktype = "integer" ∨ p.2.ktype = "boolean") :
    (∀ config : List (String × ℚ),
      isErr (nz.normalize config) = true ↔
        ∃ p ∈ nz.knobs,
          List.lookup p.1 config = none ∨
          ∃ v, List.lookup p.1 config = some v ∧
            ((p.2.ktype = "integer" ∧ p.2.maxV = p.2.minV) ∨
             (p.2.ktype = "boolean" ∧ v ≠ p.2.minV ∧ v ≠ p.2.maxV))) ∧
    (∀ vals : List ℚ,
      isErr (nz.denormalize vals) = true ↔ vals.length ≠ nz.knobs.length) := by
  constructor
  · intro config
    rw [Normalizer.normalize, isErr_normalizeList, List.any_eq_true]
    constructor
    · rintro ⟨p, hp, herr⟩
      exact ⟨p, hp, (isErr_normKnob config p.1 p.2 (htypes p hp)).mp herr⟩
    · rintro ⟨p, hp, hcond⟩
      exact ⟨p, hp, (isErr_normKnob config p.1 p.2 (htypes p hp)).mpr hcond⟩
  · intro vals
    by_cases hlen : vals.length = nz.knobs.length
    · simp [Normalizer.denormalize, hlen, denormList_ok nz.knobs vals htypes hlen]
    · simp [Normalizer.denormalize, hlen, isErr]

/-- Witness for C9: a one-integer-knob normalizer rejects the empty vector
(wrong length). -/
theorem normalizer_raises_iff_witness :
    isErr ((⟨[("a", ⟨"integer", 0, 10, 5⟩)]⟩ : Normalizer).denormalize []) =
      true := by
  have h := (normalizer_raises_iff ⟨[("a", ⟨"integer", 0, 10, 5⟩)]⟩
    (by decide)).2 []
  rw [h]
  decide

/-! ## `tuner/TwoActionTS.py`, `tuner/TwoActionLRT.py`, `tuner/contextualTS.py`

Each bandit's mutable attributes become a state structure and `update`
becomes a state transformer.  The action index produced by `select` is
always 0 or 1 in the code, and the two-element Python lists become Lean
lists updated with `List.set`.  `select` draws from the PRNG and is not
needed by the claims; its pending decision is the `lastAction`
(`self._last_action`) field. -/

/-- State of `TwoActionTS` (ε-greedy Thompson Sampling). -/
structure TwoActionTS where
  epsilon : ℚ
  alpha : List ℚ
  beta : List ℚ
  lastAction : Option ℕ
deriving DecidableEq, Repr

/-- `TwoActionTS.update`: no-op when `_last_action is None`, else a Beta
posterior update for the remembered action, which is then cleared. -/
def TwoActionTS.update (s : TwoActionTS) (reward : ℚ) : TwoActionTS :=
  match s.lastAction with
  | none => s
  | some a =>
    { s with
      alpha := s.alpha.set a (s.alpha.getD a 0 + reward)
      beta := s.beta.set a (s.beta.getD a 0 + (1 - reward))
      lastAction := none }

/-- State of `TwoActionLRT` (likelihood-ratio test bandit). -/
structure TwoActionLRT where
  success : List ℚ
  failure : List ℚ
  lastAction : Option ℕ
deriving DecidableEq, Repr

/-- `TwoActionLRT.update`: no-op when `_last_action is None`, else bumps the
success/failure counts of the remembered action and clears it. -/
def TwoActionLRT.update (s : TwoActionLRT) (reward : ℚ) : TwoActionLRT :=
  match s.lastAction with
  | none => s
  | some a =>
    { s with
      success := s.success.set a (s.success.getD a 0 + reward)
      failure := s.failure.set a (s.failure.getD a 0 + (1 - reward))
      lastAction := none }

/-- `TwoActionLRT.reward` (static): binary reward; note the source divides by
`best_perf if best_perf != 0 else 1.0` — the *divisor* is replaced by 1 when
`best_perf` is zero. -/
def TwoActionLRT.reward (cur_perf best_perf : ℚ) (n_calls : ℕ)
    (threshold : ℚ) : ℚ :=
  let improvement_ratio :=
    (cur_perf - best_perf) / (if best_perf ≠ 0 then best_perf else 1)
  let improvement_per_step := improvement_ratio / (n_calls : ℚ)
  if improvement_per_step > threshold then 1 else 0

/-- State of `ContextualTS`: `alpha`/`beta` are Python dicts keyed by the
contexts 0 and 1, each holding a two-element list, modelled as a
list-of-lists indexed by context. -/
structure ContextualTS where
  epsilon : ℚ
  alpha : List (List ℚ)
  beta : List (List ℚ)
  lastContext : Option ℕ
  lastAction : Option ℕ
deriving DecidableEq, Repr

/-- `ContextualTS.update`: no-op when `_last_context is None or _last_action
is None`, else a posterior update for the remembered (context, action) pair,
which is then cleared. -/
def ContextualTS.update (s : ContextualTS) (reward : ℚ) : ContextualTS :=
  match s.lastContext with
  | none => s
  | some c =>
    match s.lastAction with
    | none => s
    | some a =>
      { s with
        alpha := s.alpha.set c
          ((s.alpha.getD c []).set a ((s.alpha.getD c []).getD a 0 + reward))
        beta := s.beta.set c
          ((s.beta.getD c []).set a
            ((s.beta.getD c []).getD a 0 + (1 - reward)))
        lastContext := none
        lastAction := none }

/-- C8: for each bandit variant, `update` with no pending `select` decision
is a no-op: the whole state (in particular every success/failure and
alpha/beta accumulator) is returned unchanged, for every reward value. -/
theorem bandit_update_without_select_noop :
    (∀ (s : TwoActionTS) (r : ℚ), s.lastAction = none → s.update r = s) ∧
    (∀ (s : TwoActionLRT) (r : ℚ), s.lastAction = none → s.update r = s) ∧
    (∀ (s : ContextualTS) (r : ℚ),
      s.lastContext = none ∨ s.lastAction = none → s.update r = s) := by
  refine ⟨?_, ?_, ?_⟩
  · intro s r h
    simp [TwoActionTS.update, h]
  · intro s r h
    simp [TwoActionLRT.update, h]
  · intro s r h
    rcases h with h | h
    · simp [ContextualTS.update, h]
    · rcases hc : s.lastContext with _ | c
      · simp [ContextualTS.update, hc]
      · simp [ContextualTS.update, hc, h]

/-- Witness for C8: concrete freshly-initialized bandit states (no pending
decision) are unchanged by an `update` with reward 1. -/
theorem bandit_update_without_select_noop_witness :
    TwoActionTS.update ⟨1/10, [1, 1], [1, 1], none⟩ 1 =
      ⟨1/10, [1, 1], [1, 1], none⟩ ∧
    TwoActionLRT.update ⟨[1, 1], [1, 1], none⟩ 1 = ⟨[1, 1], [1, 1], none⟩ ∧
    ContextualTS.update
      ⟨1/10, [[1, 1], [1, 1]], [[1, 1], [1, 1]], none, none⟩ 1 =
      ⟨1/10, [[1, 1], [1, 1]], [[1, 1], [1, 1]], none, none⟩ :=
  ⟨bandit_update_without_select_noop.1 _ 1 rfl,
    bandit_update_without_select_noop.2.1 _ 1 rfl,
    bandit_update_without_select_noop.2.2 _ 1 (Or.inl rfl)⟩

/-- Modelled from the spec's words for C6 (refinement target, not from the
source): `improvement_ratio = (cur_perf - best_perf)/best_perf`, *defined as
1.0 when `best_perf = 0`*, `improvement_per_step = improvement_ratio /
n_calls`, reward 1.0 iff `improvement_per_step` exceeds the threshold. -/
def rewardLRTClaim (cur_perf best_perf : ℚ) (n_calls : ℕ)
    (threshold : ℚ) : ℚ :=
  let improvement_ratio :=
    if best_perf = 0 then 1 else (cur_perf - best_perf) / best_perf
  if improvement_ratio / (n_calls : ℚ) > threshold then 1 else 0

/-- Counterexample for C6: at `cur_perf = 0`, `best_perf = 0`, `n_calls = 1`
the code returns 0.0 (its improvement ratio is `(0-0)/1 = 0`), while the
claim's rule (`improvement_ratio = 1.0` when `best_perf = 0`) demands 1.0. -/
theorem rewardLRT_zero_best_counterexample :
    TwoActionLRT.reward 0 0 1 (1/1000) = 0 ∧
    rewardLRTClaim 0 0 1 (1/1000) = 1 ∧ (0 : ℚ) ≠ 1 := by
  refine ⟨?_, ?_, by norm_num⟩ <;>
    norm_num [TwoActionLRT.reward, rewardLRTClaim]

/-- The amended rule for C6: when `best_perf = 0` the divisor is replaced by
1, so `improvement_ratio = cur_perf - best_perf` (i.e. `cur_perf`) in that
case; otherwise `(cur_perf - best_perf)/best_perf`; binary threshold rule
unchanged. -/
def rewardLRTAmended (cur_perf best_perf : ℚ) (n_calls : ℕ)
    (threshold : ℚ) : ℚ :=
  let improvement_ratio :=
    if best_perf = 0 then cur_perf - best_perf
    else (cur_perf - best_perf) / best_perf
  if improvement_ratio / (n_calls : ℚ) > threshold then 1 else 0

/-- C6 amended: for every `cur_perf`, `best_perf` and `n_calls ≥ 1`,
`TwoActionLRT.reward` implements exactly the amended binary rule. -/
theorem rewardLRT_eq_amended (cur best : ℚ) (n : ℕ) (th : ℚ)
    (hn : 1 ≤ n) :
    TwoActionLRT.reward cur best n th = rewardLRTAmended cur best n th := by
  by_cases h : best = 0 <;>
    simp [TwoActionLRT.reward, rewardLRTAmended, h]

/-- Witness for C6 (amended): concrete evaluation at
`cur = 5, best = 2, n_calls = 3`. -/
theorem rewardLRT_eq_amended_witness :
    TwoActionLRT.reward 5 2 3 (1/1000) = rewardLRTAmended 5 2 3 (1/1000) :=
  rewardLRT_eq_amended 5 2 3 (1/1000) (by norm_num)

/-! ## `tuner/main.py`: `decide_calls`

The nine policy flags, in the order `decide_calls` unpacks them.  They are
Python ints (0/1 in the configs); truthiness is `≠ 0`. -/

structure Flags where
  is_basic : ℕ
  is_low : ℕ
  is_SE : ℕ
  is_incremental : ℕ
  is_bandit : ℕ
  is_TS : ℕ
  is_LRT : ℕ
  is_super_low : ℕ
  is_pure_incremental : ℕ
deriving DecidableEq, Repr

/-- `main.decide_calls`: computes `(initial_pts, n_calls)`; the
`sys.exit(1)` on conflicting flags is the `.error` branch.  `n_calls` is a
Python int and can go negative through `remaining_iters - 100`, so it is
ℤ.  Only the `None`-ness of the warm-start history `x0` is inspected. -/
def decide_calls (x0 : Option (List (List ℚ)))
    (updated_knobs_num len_knobs : ℕ) (f : Flags) (remaining_iters : ℤ) :
    Except Unit (ℕ × ℤ) :=
  let ip_n : ℕ × ℤ :=
    match x0 with
    | none =>
      let n : ℤ := 10 * len_knobs
      let n := if f.is_super_low ≠ 0 then 5 * (len_knobs : ℤ) else n
      let n := if f.is_SE ≠ 0 then 100 else n
      (10, n)
    | some _ =>
      let n : ℤ :=
        if updated_knobs_num = 0 then 10
        else
          let n : ℤ := 10 * len_knobs
          let n := if f.is_low ≠ 0 then (updated_knobs_num : ℤ) * 10 else n
          let n := if f.is_super_low ≠ 0 then (updated_knobs_num : ℤ) * 5 else n
          n
      let n := if f.is_SE ≠ 0 then remaining_iters - 100 else n
      (0, n)
  let n2 : ℤ := if f.is_basic ≠ 0 then remaining_iters else ip_n.2
  if f.is_basic + f.is_incremental + f.is_SE + f.is_bandit > 2 then .error ()
  else
    let n3 : ℤ := if f.is_incremental ≠ 0 then 25 else n2
    .ok (ip_n.1, min n3 remaining_iters)

/-- C2 (evidence for the code bug): with two of the exclusive flags set
(`is_basic = 1` and `is_SE = 1`), `decide_calls` returns normally instead
of aborting — the guard `is_basic + is_incremental + is_SE + is_bandit > 2`
only fires when at least three flags are set, although the code's own error
message says only one of them should be set. -/
theorem decide_calls_two_flags_no_abort :
    decide_calls none 0 5 ⟨1, 0, 1, 0, 0, 0, 0, 0, 0⟩ 30 = .ok (10, 30) := by
  rfl

/-! ## `tuner/knob_selection.py`: `update_tuned_knobs`

Knob names are Python strings compared only for equality; we model them by
an arbitrary type with decidable equality.  `frozen` is the key list of the
`frozen_values` dict. -/

/-- `[k for i, k in enumerate(current) if selection_mask[i] and i < len(current)]`:
walk the current list and the mask in lock step.  (The source indexes the
mask and would raise `IndexError` on a mask shorter than `current`; every
claim below assumes `mask.length = current.length`, which holds at the call
sites since the mask is fitted over the columns of `current`.) -/
def selectMasked {α : Type} : List α → List Bool → List α
  | [], _ => []
  | _, [] => []
  | k :: ks, b :: bs => if b then k :: selectMasked ks bs else selectMasked ks bs

/-- `used = set(current).union(frozen_values.keys())`;
`available = [k for k in keys if k not in used]`. -/
def utkAvailable {α : Type} [DecidableEq α] (current keys frozen : List α) :
    List α :=
  keys.filter (fun k => decide (k ∉ current ∧ k ∉ frozen))

/-- The `element_to_tune` target after the policy dispatch (lines 59-86 of
`knob_selection.py`): `is_incremental == 1 or is_SE == 1` takes the mask
count; `is_bandit == 1`, and `is_TS == 1 or is_LRT == 1`, add
`5 * bandit_choice`; a truthy `is_pure_incremental` adds 5; the default
policy grows an all-True mask by 50% (`math.floor(element_to_tune * 1.5)`)
and otherwise shrinks to the mask count plus one exploratory slot. -/
def utkTarget (currentLen maskCount maskLen : ℕ)
    (is_incremental is_SE is_bandit is_TS is_LRT is_pure_incremental : ℕ)
    (bandit_choice : ℤ) : ℤ :=
  if is_incremental = 1 ∨ is_SE = 1 then maskCount
  else if is_bandit = 1 then maskCount + 5 * bandit_choice
  else if is_TS = 1 ∨ is_LRT = 1 then maskCount + 5 * bandit_choice
  else if is_pure_incremental ≠ 0 then maskCount + 5
  else if maskCount = maskLen then ((3 * currentLen) / 2 : ℕ)
  else maskCount + 1

/-- `knob_selection.update_tuned_knobs` for `is_random=False` (the default;
the `is_random=True` branch grows the list from `random.sample` draws of
the PRNG and no claim touches it).  Returns the new knob list and the
`updated` flag.  Faithful quirk: whenever growth is attempted
(`needed > 0`), the flag is *overwritten* by `updated = bool(to_add)`,
discarding the earlier shrink detection. -/
def update_tuned_knobs {α : Type} [DecidableEq α]
    (current keys : List α) (mask : List Bool) (frozen : List α)
    (is_incremental is_SE is_bandit is_TS is_LRT is_pure_incremental : ℕ)
    (bandit_choice : ℤ) : List α × Bool :=
  let updated0 := decide (mask.count true < current.length)
  let target := utkTarget current.length (mask.count true) mask.length
    is_incremental is_SE is_bandit is_TS is_LRT is_pure_incremental
    bandit_choice
  let new0 := selectMasked current mask
  let needed : ℤ := target - new0.length
  if 0 < needed then
    let to_add := (utkAvailable current keys frozen).take needed.toNat
    (new0 ++ to_add, decide (to_add ≠ []))
  else (new0, updated0)

theorem selectMasked_length {α : Type} (l : List α) (m : List Bool)
    (h : m.length = l.length) :
    (selectMasked l m).length = m.count true := by
  induction l generalizing m with
  | nil =>
    cases m with
    | nil => rfl
    | cons b bs => simp at h
  | cons a l ih =>
    cases m with
    | nil => simp at h
    | cons b bs =>
      have hrec := ih bs (by simpa using h)
      cases b <;> simp [selectMasked, hrec, List.count_cons]

theorem selectMasked_all {α : Type} (l : List α) (m : List Bool)
    (hlen : m.length = l.length) (hall : m.count true = m.length) :
    selectMasked l m = l := by
  induction l generalizing m with
  | nil =>
    cases m with
    | nil => rfl
    | cons b bs => simp at hlen
  | cons a l ih =>
    cases m with
    | nil => simp at hlen
    | cons b bs =>
      cases b
      · have hle := List.count_le_length (a := true) (l := bs)
        simp [List.count_cons] at hall
        omega
      · simp [List.count_cons] at hall
        simp [selectMasked, ih bs (by simpa using hlen) (by omega)]

theorem mem_utkAvailable {α : Type} [DecidableEq α]
    {current keys frozen : List α} {x : α}
    (h : x ∈ utkAvailable current keys frozen) : x ∉ current := by
  simp [utkAvailable] at h
  exact h.2.1

/-- C4: under the default policy (all flags zero), with a mask covering
`current` and enough unused knobs in the full dictionary, the returned knob
list has size `floor(current_size · 1.5)` when the mask is all-True, and
`count(mask = True) + 1` otherwise. -/
theorem update_tuned_knobs_default_sizes {α : Type} [DecidableEq α]
    (current keys : List α) (mask : List Bool) (frozen : List α)
    (hmask : mask.length = current.length) :
    (mask.count true = mask.length →
      (3 * current.length) / 2 - current.length ≤
        (utkAvailable current keys frozen).length →
      ((update_tuned_knobs current keys mask frozen 0 0 0 0 0 0 0).1).length =
        (3 * current.length) / 2) ∧
    (mask.count true < mask.length →
      utkAvailable current keys frozen ≠ [] →
      ((update_tuned_knobs current keys mask frozen 0 0 0 0 0 0 0).1).length =
        mask.count true + 1) := by
  have hlen0 : (selectMasked current mask).length = mask.count true :=
    selectMasked_length current mask hmask
  constructor
  · intro hall hav
    have hcn : mask.count true = current.length := hmask ▸ hall
    have htar : utkTarget current.length (mask.count true) mask.length
        0 0 0 0 0 0 0 = ((3 * current.length) / 2 : ℕ) := by
      simp [utkTarget, hall]
    simp only [update_tuned_knobs, htar]
    split_ifs with hpos
    · rw [List.length_append, List.length_take, hlen0]
      omega
    · rw [hlen0] at hpos ⊢
      omega
  · intro hlt hne
    have hcne : ¬ mask.count true = mask.length := ne_of_lt hlt
    have htar : utkTarget current.length (mask.count true) mask.length
        0 0 0 0 0 0 0 = (mask.count true : ℤ) + 1 := by
      simp [utkTarget, hcne]
    have hpos : 0 < (utkAvailable current keys frozen).length :=
      List.length_pos.mpr hne
    simp only [update_tuned_knobs, htar]
    split_ifs with hgt
    · rw [List.length_append, List.length_take, hlen0]
      omega
    · rw [hlen0] at hgt
      omega

/-- Witness for C4: 10 knobs with an all-True mask grow to 15; a mask with
4 of 10 True shrinks to 5. -/
theorem update_tuned_knobs_default_sizes_witness :
    ((update_tuned_knobs (List.range 10) (List.range 20)
        (List.replicate 10 true) ([] : List ℕ) 0 0 0 0 0 0 0).1).length =
      15 ∧
    ((update_tuned_knobs (List.range 10) (List.range 20)
        (List.replicate 4 true ++ List.replicate 6 false) ([] : List ℕ)
        0 0 0 0 0 0 0).1).length = 5 := by
  constructor
  · have h := (update_tuned_knobs_default_sizes (List.range 10)
      (List.range 20) (List.replicate 10 true) [] (by decide)).1
      (by decide) (by decide)
    rw [h]
    decide
  · have h := (update_tuned_knobs_default_sizes (List.range 10)
      (List.range 20) (List.replicate 4 true ++ List.replicate 6 false) []
      (by decide)).2 (by decide) (by decide)
    rw [h]
    decide

/-- Counterexample for C5: with `current = [0,1]`, a full dictionary that
has no unused knob, and mask `[True, False]`, the set shrinks to `[0]`
(which differs from `current`) yet the returned flag is `False`: the growth
step found `needed = 1 > 0` but nothing available, and `updated =
bool(to_add)` overwrote the earlier shrink detection. -/
theorem update_tuned_knobs_changed_flag_counterexample :
    update_tuned_knobs [0, 1] [0, 1] [true, false] ([] : List ℕ)
        0 0 0 0 0 0 0 = ([0], false) ∧ ([0] : List ℕ) ≠ [0, 1] := by
  decide

/-- C5 amended: the returned flag is `True` iff the returned list differs
from `current_set`, *provided* that growth, when needed, finds at least one
unused knob (otherwise the flag is `False` even if the set shrank). -/
theorem update_tuned_knobs_changed_iff {α : Type} [DecidableEq α]
    (current keys : List α) (mask : List Bool) (frozen : List α)
    (inc se bd ts lrt pinc : ℕ) (bc : ℤ)
    (hmask : mask.length = current.length)
    (hgrow : utkTarget current.length (mask.count true) mask.length
        inc se bd ts lrt pinc bc ≤ ((selectMasked current mask).length : ℤ) ∨
      utkAvailable current keys frozen ≠ []) :
    ((update_tuned_knobs current keys mask frozen
        inc se bd ts lrt pinc bc).2 = true) ↔
      (update_tuned_knobs current keys mask frozen
        inc se bd ts lrt pinc bc).1 ≠ current := by
  have hlen0 : (selectMasked current mask).length = mask.count true :=
    selectMasked_length current mask hmask
  simp only [update_tuned_knobs]
  split_ifs with hpos
  · have hav : utkAvailable current keys frozen ≠ [] := by
      rcases hgrow with hg | hg
      · exfalso
        omega
      · exact hg
    obtain ⟨a, A', hA⟩ : ∃ a A', utkAvailable current keys frozen = a :: A' := by
      rcases h : utkAvailable current keys frozen with _ | ⟨a, A'⟩
      · exact absurd h hav
      · exact ⟨a, A', rfl⟩
    obtain ⟨m, hm⟩ : ∃ m, (utkTarget current.length (mask.count true)
        mask.length inc se bd ts lrt pinc bc -
        ((selectMasked current mask).length : ℤ)).toNat = m + 1 := by
      refine ⟨(utkTarget current.length (mask.count true) mask.length
        inc se bd ts lrt pinc bc -
        ((selectMasked current mask).length : ℤ)).toNat - 1, ?_⟩
      omega
    have htake : (utkAvailable current keys frozen).take
        (utkTarget current.length (mask.count true) mask.length
          inc se bd ts lrt pinc bc -
          ((selectMasked current mask).length : ℤ)).toNat =
        a :: A'.take m := by
      rw [hA, hm]
      rfl
    have hnil : (utkAvailable current keys frozen).take
        (utkTarget current.length (mask.count true) mask.length
          inc se bd ts lrt pinc bc -
          ((selectMasked current mask).length : ℤ)).toNat ≠ [] := by
      rw [htake]
      simp
    have hflag : decide ((utkAvailable current keys frozen).take
        (utkTarget current.length (mask.count true) mask.length
          inc se bd ts lrt pinc bc -
          ((selectMasked current mask).length : ℤ)).toNat ≠ []) = true := by
      simpa using hnil
    have hne : selectMasked current mask ++
        (utkAvailable current keys frozen).take
          (utkTarget current.length (mask.count true) mask.length
            inc se bd ts lrt pinc bc -
            ((selectMasked current mask).length : ℤ)).toNat ≠ current := by
      intro heq
      have haA : a ∈ utkAvailable current keys frozen := by
        rw [hA]
        exact List.mem_cons_self a A'
      have hnc : a ∉ current := mem_utkAvailable haA
      apply hnc
      rw [← heq, htake]
      exact List.mem_append_right _ (List.mem_cons_self a _)
    exact ⟨fun _ => hne, fun _ => hflag⟩
  · constructor
    · intro hd heq
      have hd2 : List.count true mask < current.length := of_decide_eq_true hd
      have h2 : selectMasked current mask = current := heq
      have h3 : (selectMasked current mask).length = current.length := by
        rw [h2]
      omega
    · intro hne
      have hle : mask.count true ≤ mask.length :=
        List.count_le_length (a := true) (l := mask)
      by_cases hlt : List.count true mask < current.length
      · exact decide_eq_true hlt
      · exfalso
        have hcl : mask.count true = mask.length := by omega
        exact hne (selectMasked_all current mask hmask hcl)

/-- Witness for C5 (amended): growing `[0,1]` with one available knob
yields a different list and the flag is `True`. -/
theorem update_tuned_knobs_changed_iff_witness :
    (update_tuned_knobs [0, 1] [0, 1, 2] [true, false] ([] : List ℕ)
        0 0 0 0 0 0 0).2 = true :=
  (update_tuned_knobs_changed_iff [0, 1] [0, 1, 2] [true, false] []
      0 0 0 0 0 0 0 (by decide) (Or.inr (by decide))).mpr (by decide)

/-! ## `Drivers/MySQLDriver.py`: `execute_olap`

The method runs over the statement units obtained by the CREATE-VIEW
grouping of the SQL script; the claims quantify over that unit list, so the
model takes it as input (units carry opaque ids).  Database latencies, the
wall clock and the PRNG are oracles in `OlapEnv`; the CSV logging is I/O
with no influence on the returned value or state. -/

/-- The per-run baseline attributes `best_total_time` / `best_olap_times`
(the latter a dict keyed by statement unit, read with `.get(q, 0)`). -/
structure OlapState where
  best_total_time : Option ℚ
  best_olap_times : List (ℕ × ℚ)
deriving DecidableEq, Repr

/-- `self.best_olap_times.get(q, 0)`. -/
def OlapState.bestGet (st : OlapState) (q : ℕ) : ℚ :=
  (List.lookup q st.best_olap_times).getD 0

/-- Oracles for the effectful parts of `execute_olap`: `sampleChoice c` is
the unit list `random.sample(queries, c)` returns, `queryTime`/`fullTime`
the measured per-unit latencies of the sample phase and the full loop, and
`fullTotal` the wall-clock duration of the full loop. -/
structure OlapEnv where
  sampleChoice : ℕ → List ℕ
  queryTime : ℕ → ℚ
  fullTime : ℕ → ℚ
  fullTotal : ℚ

/-- `count = max(1, int(len(queries) * pct / 100))`: Python `int()`
truncates toward zero, which on these non-negative values is the floor,
i.e. Nat division. -/
def olapSampleCount (n pct : ℕ) : ℕ := max 1 (n * pct / 100)

/-- `sampled = random.sample(queries, count)`, via the PRNG oracle. -/
def olapSampled (env : OlapEnv) (queries : List ℕ) (pct : ℕ) : List ℕ :=
  env.sampleChoice (olapSampleCount queries.length pct)

/-- `est = round(total_best * ratio, 2)` with
`ratio = sample_total / sampled_best if sampled_best else 1` and
`sample_total = round(sum(sample_times.values()), 2)`. -/
def olapEstimate (env : OlapEnv) (queries : List ℕ) (pct : ℕ)
    (st : OlapState) : ℚ :=
  let sampled := olapSampled env queries pct
  let sample_total := round2 ((sampled.map env.queryTime).sum)
  let total_best := (queries.map st.bestGet).sum
  let sampled_best := (sampled.map st.bestGet).sum
  let ratio := if sampled_best ≠ 0 then sample_total / sampled_best else 1
  round2 (total_best * ratio)

/-- The unconditional full execution and baseline update (lines 334-354).
`executedBefore` records the units already executed during the sample
phase; the result is (return value, new state, executed units in order). -/
def olapFullRun (env : OlapEnv) (queries : List ℕ) (st : OlapState)
    (executedBefore : List ℕ) : ℚ × OlapState × List ℕ :=
  let full_times := queries.map (fun q => (q, env.fullTime q))
  let full_total := round2 env.fullTotal
  let st' : OlapState :=
    match st.best_total_time with
    | none => ⟨some full_total, full_times⟩
    | some b => if full_total < b then ⟨some full_total, full_times⟩ else st
  (full_total, st', executedBefore ++ queries)

/-- `MySQLDriver.execute_olap` over the parsed unit list: empty-script
early return, budget clamp `pct = max(0, min(100, budget_allocator))`, the
sampling/estimate short-circuit for `0 < pct < 100`, then the full run. -/
def execute_olap (env : OlapEnv) (queries : List ℕ) (budget : ℕ)
    (st : OlapState) : ℚ × OlapState × List ℕ :=
  if queries = [] then (0, st, [])
  else
    let pct := min 100 budget
    if 0 < pct ∧ pct < 100 then
      let sampled := olapSampled env queries pct
      let est := olapEstimate env queries pct st
      match st.best_total_time with
      | some b => if b ≤ est then (est, st, sampled)
                  else olapFullRun env queries st sampled
      | none => olapFullRun env queries st sampled
    else olapFullRun env queries st []

/-- C3: with `0 < budget_percent < 100`, if a prior best exists and the
sample estimate is not better than it, the full run is skipped: the
estimate is returned and the state (total and per-query bests) is
unmodified, with only the sampled units executed.  With no prior best, the
full run always executes: the return value is the full-run time, the new
baseline is established from it, and the executed units end with the whole
query list. -/
theorem execute_olap_budget_behavior (env : OlapEnv) (queries : List ℕ)
    (budget : ℕ) (st : OlapState) :
    (∀ b : ℚ, queries ≠ [] → 0 < budget → budget < 100 →
      st.best_total_time = some b →
      b ≤ olapEstimate env queries budget st →
      execute_olap env queries budget st =
        (olapEstimate env queries budget st, st,
          olapSampled env queries budget)) ∧
    (queries ≠ [] → st.best_total_time = none →
      (execute_olap env queries budget st).2.1.best_total_time =
          some (round2 env.fullTotal) ∧
      (execute_olap env queries budget st).2.1.best_olap_times =
          queries.map (fun q => (q, env.fullTime q)) ∧
      (execute_olap env queries budget st).1 = round2 env.fullTotal ∧
      ∃ pre, (execute_olap env queries budget st).2.2 = pre ++ queries) := by
  constructor
  · intro b hq h1 h2 hbest hle
    have hpct : min 100 budget = budget := min_eq_right (le_of_lt h2)
    have hc : 0 < budget ∧ budget < 100 := ⟨h1, h2⟩
    simp [execute_olap, hq, hpct, hc, hbest, hle]
  · intro hq hnone
    by_cases hc : 0 < budget ∧ budget < 100
    · have hcm : 0 < min 100 budget ∧ min 100 budget < 100 := by
        obtain ⟨h1, h2⟩ := hc
        exact ⟨by omega, by omega⟩
      refine ⟨?_, ?_, ?_, ⟨olapSampled env queries (min 100 budget), ?_⟩⟩ <;>
        simp [execute_olap, hq, hcm, hc, hnone, olapFullRun]
    · have hcm : ¬ (0 < min 100 budget ∧ min 100 budget < 100) := by
        intro h
        obtain ⟨h1, h2⟩ := h
        exact hc ⟨by omega, by omega⟩
      refine ⟨?_, ?_, ?_, ⟨[], ?_⟩⟩ <;>
        simp [execute_olap, hq, hcm, hc, hnone, olapFullRun]

/-- Witness for C3: a concrete skip (prior best 0 with an estimate of 0,
which is not better) and a concrete first run establishing the baseline. -/
theorem execute_olap_budget_behavior_witness :
    execute_olap ⟨fun _ => [0], fun _ => 1, fun _ => 1, 3⟩
        [0, 1, 2] 50 ⟨some 0, []⟩ =
      (olapEstimate ⟨fun _ => [0], fun _ => 1, fun _ => 1, 3⟩
          [0, 1, 2] 50 ⟨some 0, []⟩,
        ⟨some 0, []⟩,
        olapSampled ⟨fun _ => [0], fun _ => 1, fun _ => 1, 3⟩ [0, 1, 2] 50) ∧
    (execute_olap ⟨fun _ => [0], fun _ => 1, fun _ => 1, 3⟩
        [0, 1, 2] 50 ⟨none, []⟩).2.1.best_total_time = some (round2 3) := by
  constructor
  · have hest : olapEstimate ⟨fun _ => [0], fun _ => 1, fun _ => 1, 3⟩
        [0, 1, 2] 50 ⟨some 0, []⟩ = 0 := by
      have hb : ∀ q, (⟨some 0, []⟩ : OlapState).bestGet q = 0 := fun _ => rfl
      simp only [olapEstimate, olapSampled, olapSampleCount]
      norm_num [round2, pyRound, hb]
    exact (execute_olap_budget_behavior _ [0, 1, 2] 50 _).1 0
      (by decide) (by decide) (by decide) rfl (by simp [hest])
  · exact ((execute_olap_budget_behavior _ [0, 1, 2] 50 ⟨none, []⟩).2
      (by decide) rfl).1

/-- Counterexample for C7: for a 3-unit script at `budget_percent = 50` the
code samples `max(1, int(3·50/100)) = max(1, int(1.5)) = 1` unit (here in a
skip run, so the executed list is exactly the sample), while the claim's
formula `max(1, round(3·50/100)) = max(1, 2) = 2` — Python `round(1.5)` is
2 — demands two. -/
theorem execute_olap_sample_count_counterexample :
    ((execute_olap
        ⟨fun c => (List.range 3).take c, fun _ => 1, fun _ => 1, 3⟩
        [0, 1, 2] 50 ⟨some 0, []⟩).2.2).length = 1 ∧
    max 1 ((pyRound (((3 : ℚ) * 50) / 100)).toNat) = 2 := by
  constructor
  · have hb : ∀ q, (⟨some 0, []⟩ : OlapState).bestGet q = 0 := fun _ => rfl
    have hest : olapEstimate
        ⟨fun c => (List.range 3).take c, fun _ => 1, fun _ => 1, 3⟩
        [0, 1, 2] 50 ⟨some 0, []⟩ = 0 := by
      simp only [olapEstimate, olapSampled, olapSampleCount]
      norm_num [round2, pyRound, hb]
    have hrun : execute_olap
        ⟨fun c => (List.range 3).take c, fun _ => 1, fun _ => 1, 3⟩
        [0, 1, 2] 50 ⟨some 0, []⟩ =
        (olapEstimate
            ⟨fun c => (List.range 3).take c, fun _ => 1, fun _ => 1, 3⟩
            [0, 1, 2] 50 ⟨some 0, []⟩,
          ⟨some 0, []⟩,
          olapSampled
            ⟨fun c => (List.range 3).take c, fun _ => 1, fun _ => 1, 3⟩
            [0, 1, 2] 50) := by
      simp [execute_olap, hest]
    rw [hrun]
    rfl
  · have hf : (⌊((3 : ℚ) * 50) / 100⌋ : ℤ) = 1 := by norm_num
    norm_num [pyRound, hf]
    decide

/-- C7 amended: with `0 < budget_percent < 100` over a non-empty unit list,
the units executed before the estimate is formed are exactly
`random.sample(queries, max(1, floor(N·budget_percent/100)))` — `int()`
truncation, not round-to-nearest — so whenever the PRNG honors
`random.sample`'s length contract, exactly `max(1, floor(N·pct/100))`
units (uniform, without replacement, by that contract) are sampled and
only those run before the estimate. -/
theorem execute_olap_sample_phase (env : OlapEnv) (queries : List ℕ)
    (budget : ℕ) (st : OlapState)
    (hq : queries ≠ []) (h1 : 0 < budget) (h2 : budget < 100) :
    olapSampled env queries budget =
      env.sampleChoice (max 1 (queries.length * budget / 100)) ∧
    ((∀ c, (env.sampleChoice c).length = c) →
      (olapSampled env queries budget).length =
        max 1 (queries.length * budget / 100)) ∧
    (execute_olap env queries budget st).2.2.take
        (olapSampled env queries budget).length =
      olapSampled env queries budget := by
  refine ⟨rfl, fun hs => by simp [olapSampled, olapSampleCount, hs], ?_⟩
  have hpct : min 100 budget = budget := min_eq_right (le_of_lt h2)
  have hc : 0 < budget ∧ budget < 100 := ⟨h1, h2⟩
  rcases hb : st.best_total_time with _ | b
  · simp [execute_olap, hq, hpct, hc, hb, olapFullRun, List.take_left]
  · by_cases hle : b ≤ olapEstimate env queries budget st
    · simp [execute_olap, hq, hpct, hc, hb, hle, List.take_length]
    · simp [execute_olap, hq, hpct, hc, hb, hle, olapFullRun, List.take_left]

/-- Witness for C7 (amended): a 6-unit script at 25% with a length-honest
PRNG samples `max(1, 6·25/100) = 1` unit. -/
theorem execute_olap_sample_phase_witness :
    (olapSampled ⟨fun c => List.range c, fun _ => 1, fun _ => 1, 3⟩
        [0, 1, 2, 3, 4, 5] 25).length =
      max 1 (([0, 1, 2, 3, 4, 5] : List ℕ).length * 25 / 100) :=
  (execute_olap_sample_phase _ [0, 1, 2, 3, 4, 5] 25 ⟨none, []⟩ (by decide)
      (by decide) (by decide)).2.1 (fun c => by simp)

/-! ## `tuner/main.py`: `feature_selection_cycle`

Oracles stand in for the library calls: fitted RFECV masks, the scipy
t-test mask, the CSV performance column and the bandit's randomized
`select`.  The bandit's own posterior update (`bandit.update(...)`) mutates
the caller's bandit object and the frozen-value/warm-start bookkeeping after
a successful `update_tuned_knobs` is file I/O; neither affects which knob
set (if any) the function returns, which is what the claim is about. -/

/-- `rfecvMask` is `rfecv.support_.tolist()` from the plain RFECV fits
(default and `is_bandit` branches), `rfecvMaskMin` the same from the fits
passing `min_features_to_select` (`is_TS`/`is_LRT`/`is_pure_incremental`
branches), `ttestMask` the scipy t-test mask, `perfList` the performance
column loaded from the intermediate CSV, `banditChoice` the value the
bandit's `select` returns. -/
structure FscEnv where
  rfecvMask : List Bool
  rfecvMaskMin : List Bool
  ttestMask : List Bool
  perfList : List ℚ
  banditChoice : ℤ

/-- `knob_selection.IncrementalSupportMask` (lines 21-30): `selected` starts
at `initial - step` so the first call bumps it to `initial`. -/
structure IncrementalSupportMask where
  n_features : ℕ
  step : ℤ
  selected : ℤ
deriving DecidableEq, Repr

/-- `IncrementalSupportMask.__call__`: advances `selected` (capped at
`n_features`) and returns the prefix mask, plus the new selector state. -/
def IncrementalSupportMask.call (s : IncrementalSupportMask) :
    IncrementalSupportMask × List Bool :=
  let sel := min (s.selected + s.step) (s.n_features : ℤ)
  (⟨s.n_features, s.step, sel⟩,
    (List.range s.n_features).map (fun i => decide ((i : ℤ) < sel)))

/-- The tail of `feature_selection_cycle` from the unconditional
`print("min_features_to_select is ", min_features_to_select)` (line 291)
onwards: reading the local raises `NameError` when no branch assigned it
(`mfs = none`); otherwise `update_tuned_knobs` runs and
`(new_knobs, updated_num)` is returned, with
`updated_num = max(len(set(new_knobs) - set(current_knobs)), 0)` when the
set changed and the unchanged `(current, 0)` otherwise. -/
def fscTail (mfs : Option ℕ) (current keys : List String)
    (mask : List Bool) (frozen : List String) (f : Flags)
    (bandit_choice : ℤ) : Except String (List String × ℕ) :=
  match mfs with
  | none => .error "NameError: min_features_to_select"
  | some _ =>
    let r := update_tuned_knobs current keys mask frozen
      f.is_incremental f.is_SE f.is_bandit f.is_TS f.is_LRT
      f.is_pure_incremental bandit_choice
    if r.2 then
      .ok (r.1, ((r.1.filter (fun k => decide (k ∉ current))).dedup).length)
    else .ok (current, 0)

/-- `main.feature_selection_cycle`: the branch dispatch on the policy
flags.  The local `min_features_to_select` is assigned only in the
`is_TS`/`is_LRT` and `is_pure_incremental` branches; `bandit_choice`
starts at `-1`;  `max()` over the empty performance list in the bandit
branches raises `ValueError` (the claims supply a non-empty list, as every
run that reaches this point has logged evaluations). -/
def feature_selection_cycle (env : FscEnv)
    (current keys frozen : List String) (f : Flags)
    (selector : IncrementalSupportMask) :
    Except String (List String × ℕ) :=
  if f.is_SE = 0 ∧ f.is_incremental = 0 ∧ f.is_bandit = 0 ∧ f.is_TS = 0 ∧
      f.is_LRT = 0 ∧ f.is_pure_incremental = 0 then
    fscTail none current keys env.rfecvMask frozen f (-1)
  else if f.is_incremental ≠ 0 then
    fscTail none current keys (selector.call).2 frozen f (-1)
  else if f.is_SE ≠ 0 then
    fscTail none current keys env.ttestMask frozen f (-1)
  else if f.is_bandit ≠ 0 then
    if env.perfList = [] then .error "ValueError: max of empty sequence"
    else fscTail none current keys env.rfecvMask frozen f env.banditChoice
  else if f.is_TS ≠ 0 ∨ f.is_LRT ≠ 0 then
    if env.perfList = [] then .error "ValueError: max of empty sequence"
    else fscTail (some (if f.is_super_low ≠ 0 then 10 else 1)) current keys
      env.rfecvMaskMin frozen f env.banditChoice
  else if f.is_pure_incremental ≠ 0 then
    fscTail (some (if f.is_super_low ≠ 0 then 10 else 1)) current keys
      env.rfecvMaskMin frozen f 0
  else .error "unreachable: sys.exit(1)"

/-- C10: whenever none of `is_TS`, `is_LRT`, `is_pure_incremental` is set —
that covers the default no-flag policy and the incremental, statistical-
elimination and contextual-bandit policies — `feature_selection_cycle`
reaches the unconditional diagnostic print of `min_features_to_select`
with the local unassigned and dies with `NameError`, never returning an
updated knob set. -/
theorem feature_selection_cycle_name_error (env : FscEnv)
    (current keys frozen : List String) (f : Flags)
    (selector : IncrementalSupportMask)
    (hts : f.is_TS = 0) (hlrt : f.is_LRT = 0)
    (hpi : f.is_pure_incremental = 0) (hperf : env.perfList ≠ []) :
    feature_selection_cycle env current keys frozen f selector =
      .error "NameError: min_features_to_select" := by
  unfold feature_selection_cycle
  by_cases hse : f.is_SE = 0 <;> by_cases hinc : f.is_incremental = 0 <;>
    by_cases hband : f.is_bandit = 0 <;>
      simp [hse, hinc, hband, hts, hlrt, hpi, hperf, fscTail]

/-- Witness for C10: the default all-zero flag vector with a non-empty
performance history raises the `NameError`. -/
theorem feature_selection_cycle_name_error_witness :
    feature_selection_cycle ⟨[true], [true], [true], [1], 0⟩ ["a"]
        ["a", "b"] [] ⟨0, 0, 0, 0, 0, 0, 0, 0, 0⟩ ⟨2, 2, 2⟩ =
      .error "NameError: min_features_to_select" :=
  feature_selection_cycle_name_error _ _ _ _ _ _ rfl rfl rfl
    (List.cons_ne_nil 1 [])

end DOT
